import Mathlib

/-!
Verification of the Spatial Hash Radiance Cache against its specification.

The definitions below are a shallow embedding of the shader-side cache logic:

* `XorShift32`, `SpatialHash_H`, `SpatialHash_Checksum`, `CalculateCascadeIndex`,
  `SpatialHashIndex`, `SpatialHashCascadeIndex`, `SpatialHashCascadeIndexWithChecksum`
  embed `shaders/include/SpatialHash.hlsl` (also inlined in
  `shaders/tests/InlineRayTracingUnitTest.hlsl`, lines 938-1045).
* `collisionCheck`, `atomicAccumulateResolve`, `radianceCacheWrite` embed the
  radiance-cache compute shader in `shaders/GBufferCS.hlsl` (second document,
  collision detection lines 384-433, atomic accumulation and resolve lines 435-470).
* `probeRayResolveScatter` embeds `shaders/ddgi/ProbeRayResolveCS.hlsl` lines 82-108.

Modelling conventions: 32-bit unsigned integers are natural numbers reduced
modulo `U32 = 2^32` at every operation that can wrap, exactly where the HLSL
`uint` arithmetic wraps; `int`-to-`uint` casts are two's-complement
reinterpretation, i.e. reduction of the integer modulo `2^32`.  Radiance values
(HLSL `float3`) are modelled as exact rationals; the floating-point rounding of
the shader is not modelled, so numeric claims are settled for the ideal
real-number semantics the spec itself uses.  Geometry (position, distance,
`floor(P / cellSize)`) is abstracted into its result: a quantized grid
coordinate `g : ℤ × ℤ × ℤ` and the distance quotient
`distQ = floor(|P - ref| / cascadeBaseDistance) : ℕ`, which is all the integer
pipeline under verification consumes.
-/

/-- The modulus of 32-bit unsigned integer arithmetic. -/
def U32 : ℕ := 2 ^ 32

/-- HLSL `uint` subtraction `a - b` (wrap-around modulo `2^32`), used for the
entry age `CurrentFrame - StoredFrame` in `GBufferCS.hlsl` line 394. -/
def usub (a b : ℕ) : ℕ := (a % U32 + (U32 - b % U32)) % U32

/-- HLSL `uint` left shift `x << n` (low 32 bits kept). -/
def ushl (x n : ℕ) : ℕ := (x * 2 ^ n) % U32

/-- HLSL `uint` right shift `x >> n`. -/
def ushr (x n : ℕ) : ℕ := x / 2 ^ n

/-- HLSL `uint` multiplication (wrap-around modulo `2^32`). -/
def umul (a b : ℕ) : ℕ := (a * b) % U32

/-- HLSL cast `(uint)g` of a 32-bit signed integer: two's-complement
reinterpretation, i.e. `g` modulo `2^32`. -/
def intToUint (g : ℤ) : ℕ := (g % (4294967296 : ℤ)).toNat

/-- Embedding of `XorShift32` (`SpatialHash.hlsl`, `InlineRayTracingUnitTest.hlsl`
lines 943-949): `x ^= x << 13; x ^= x >> 17; x ^= x << 5`. -/
def XorShift32 (x0 : ℕ) : ℕ :=
  let x1 := Nat.xor x0 (ushl x0 13)
  let x2 := Nat.xor x1 (ushr x1 17)
  Nat.xor x2 (ushl x2 5)

/-- Modelled from the spec: the final avalanche mix of the position hash.  The
source computes `WangHash(h)` as its final mixing step, but `Random.hlsl`,
which defines `WangHash`, is not among the provided source files; this is the
standard Wang hash avalanche sequence the name refers to.  None of the claims
settled below depends on the actual values of this mix. -/
def WangHash (seed : ℕ) : ℕ :=
  let s1 := Nat.xor (Nat.xor seed 61) (ushr seed 16)
  let s2 := umul s1 9
  let s3 := Nat.xor s2 (ushr s2 4)
  let s4 := umul s3 668265261
  Nat.xor s4 (ushr s4 15)

/-- Embedding of `SpatialHash_H` (`InlineRayTracingUnitTest.hlsl` lines 957-973)
on the quantized grid coordinate: FNV-1a style mixing of the three axes followed
by the final `WangHash` mix. -/
def SpatialHash_H (g : ℤ × ℤ × ℤ) : ℕ :=
  let h0 : ℕ := 2166136261
  let h1 := umul (Nat.xor h0 (intToUint g.1)) 16777619
  let h2 := umul (Nat.xor h1 (intToUint g.2.1)) 16777619
  let h3 := umul (Nat.xor h2 (intToUint g.2.2)) 16777619
  WangHash h3

/-- Embedding of `SpatialHash_Checksum` (`InlineRayTracingUnitTest.hlsl` lines
975-984) on the quantized grid coordinate: the `uint` sum of the per-axis
`XorShift32` hashes.  Note the source performs no remapping of a zero result. -/
def SpatialHash_Checksum (g : ℤ × ℤ × ℤ) : ℕ :=
  (XorShift32 (intToUint g.1) + XorShift32 (intToUint g.2.1) +
    XorShift32 (intToUint g.2.2)) % U32

/-- Embedding of `CalculateCascadeIndex` (`InlineRayTracingUnitTest.hlsl` lines
991-996) on the distance quotient `distQ = floor(|P - CameraPos| / CascadeDistance)`:
`min(floor(DistToCamera / CascadeDistance), CascadeNum - 1)`. -/
def CalculateCascadeIndex (distQ CascadeNum : ℕ) : ℕ :=
  min distQ (CascadeNum - 1)

/-- Embedding of `SpatialHashIndex` (`InlineRayTracingUnitTest.hlsl` lines
1009-1012): `SpatialHash_H(P, CellSize) % CellNum`. -/
def SpatialHashIndex (g : ℤ × ℤ × ℤ) (CellNum : ℕ) : ℕ :=
  SpatialHash_H g % CellNum

/-- Embedding of `SpatialHashCascadeIndex` (`InlineRayTracingUnitTest.hlsl`
lines 1014-1019): the per-cascade hash index offset by
`CascadeIndex * CellNum`.  `g` is the grid coordinate quantized at the selected
cascade's cell size. -/
def SpatialHashCascadeIndex (g : ℤ × ℤ × ℤ) (distQ CellNum CascadeNum : ℕ) : ℕ :=
  SpatialHashIndex g CellNum + CalculateCascadeIndex distQ CascadeNum * CellNum

/-- Embedding of `SpatialHashCascadeIndexWithChecksum`
(`InlineRayTracingUnitTest.hlsl` lines 1022-1035): the pair of the cascade hash
index and the collision-detection checksum, both computed from the grid
coordinate at the selected cascade's cell size. -/
def SpatialHashCascadeIndexWithChecksum (g : ℤ × ℤ × ℤ)
    (distQ CellNum CascadeNum : ℕ) : ℕ × ℕ :=
  (SpatialHashCascadeIndex g distQ CellNum CascadeNum, SpatialHash_Checksum g)

/-- A radiance triple; the HLSL `float3` carrying RGB radiance, modelled with
exact rational components. -/
structure Vec3Q where
  r : ℚ
  g : ℚ
  b : ℚ
deriving DecidableEq

/-- The zero radiance `float3(0, 0, 0)`. -/
def zero3 : Vec3Q := ⟨0, 0, 0⟩

/-- HLSL `saturate` on one channel: clamp to `[0, 1]`. -/
def satQ (x : ℚ) : ℚ := max 0 (min 1 x)

/-- HLSL `saturate` on a `float3`, applied per channel. -/
def saturate3 (v : Vec3Q) : Vec3Q := ⟨satQ v.r, satQ v.g, satQ v.b⟩

/-- HLSL `lerp(x, y, s) = x + s * (y - x)` on one channel. -/
def lerpQ (x y s : ℚ) : ℚ := x + s * (y - x)

/-- HLSL `lerp` on a `float3`, applied per channel with a scalar factor. -/
def lerp3 (x y : Vec3Q) (s : ℚ) : Vec3Q :=
  ⟨lerpQ x.r y.r s, lerpQ x.g y.g s, lerpQ x.b y.b s⟩

/-- Default of `RADIANCE_CACHE_RADIANCE_SCALE` (`GBufferCS.hlsl` lines 150-152):
the fixed-point scale 1024 used to convert radiance to integers for atomics. -/
def RADIANCE_CACHE_RADIANCE_SCALE : ℚ := 1024

/-- Default of `RADIANCE_CACHE_MAX_ACCUMULATED_SAMPLES` (`GBufferCS.hlsl` lines
113-115): the sample count 32 at which the blend switches from linear to
exponential. -/
def RADIANCE_CACHE_MAX_ACCUMULATED_SAMPLES : ℚ := 32

/-- Default of `RADIANCE_CACHE_COLLISION_EVICT_THRESHOLD` (`GBufferCS.hlsl`
lines 177-179): the age threshold 4 for eviction on collision. -/
def RADIANCE_CACHE_COLLISION_EVICT_THRESHOLD : ℕ := 4

/-- Default of `RADIANCE_CACHE_USE_COLLISION_DETECTION` (`GBufferCS.hlsl` lines
162-164): collision detection is disabled (`0`) in the default configuration,
with the source comment "TEMPORARILY DISABLED: Checksum mismatch due to FP
precision between ProbeTraceCS ... and RadianceCacheCS ...". -/
def RADIANCE_CACHE_USE_COLLISION_DETECTION : Bool := false

/-- One channel of `uint3(saturate(NewRadiance) * RADIANCE_CACHE_RADIANCE_SCALE)`
(`GBufferCS.hlsl` line 438): clamp to `[0,1]`, scale by 1024, truncate to `uint`. -/
def scaleRad (x : ℚ) : ℕ := (⌊satQ x * RADIANCE_CACHE_RADIANCE_SCALE⌋).toNat

/-- The per-index accumulation record of the `AccumulationBuffer` (16 bytes per
entry: R, G, B, Count as `uint`; `GBufferCS.hlsl` lines 374-377). -/
structure AccumulationEntry where
  sumR : ℕ
  sumG : ℕ
  sumB : ℕ
  count : ℕ
deriving DecidableEq

/-- The zeroed accumulation entry `uint4(0, 0, 0, 0)`. -/
def zeroAccum : AccumulationEntry := ⟨0, 0, 0, 0⟩

/-- The per-index metadata record of the `MetadataBuffer` (8 bytes per entry:
Checksum, last update frame; `GBufferCS.hlsl` lines 374-378, 390-391). -/
structure MetadataEntry where
  checksum : ℕ
  lastWriteTime : ℕ
deriving DecidableEq

/-- The complete per-`HashIndex` state of the cache table: the metadata entry,
the accumulation entry, and the resolved radiance stored in
`RadianceCachingBuffer[HashID]`. -/
structure CacheCell where
  meta : MetadataEntry
  accum : AccumulationEntry
  resolved : Vec3Q
deriving DecidableEq

/-- Result of one radiance-cache write: the updated cell state and the
`FinalRadiance` value the shader hands on to the DDGI consumer. -/
structure AccumResult where
  cell : CacheCell
  finalRadiance : Vec3Q
deriving DecidableEq

/-- Embedding of the collision-detection block (`GBufferCS.hlsl` lines
386-433): compares the incoming checksum against the stored one and either
claims the cell, refreshes it, evicts it, or flags the write to be skipped.
Returns the updated cell and the `bSkipAccumulation` flag. -/
def collisionCheck (evictThreshold currentFrame checksum : ℕ)
    (cell : CacheCell) : CacheCell × Bool :=
  let stored := cell.meta.checksum
  let age := usub currentFrame cell.meta.lastWriteTime
  if stored ≠ 0 ∧ stored ≠ checksum then
    -- IsCollision
    if evictThreshold ≤ age then
      -- evict: reset accumulation, claim metadata, clear radiance history
      (⟨⟨checksum, currentFrame⟩, zeroAccum, zero3⟩, false)
    else
      -- recent entry: skip this update
      (cell, true)
  else if stored = 0 then
    -- IsEmpty: first write, claim the cell
    (⟨⟨checksum, currentFrame⟩, cell.accum, cell.resolved⟩, false)
  else
    -- IsSameCell: refresh the last-write frame
    (⟨⟨stored, currentFrame⟩, cell.accum, cell.resolved⟩, false)

/-- Embedding of the atomic accumulation and resolve block (`GBufferCS.hlsl`
lines 435-470): scale the saturated contribution to integers, atomically add
the three channels and the count, compute the accumulated mean, and blend it
with the resolved history using `1 / min(SampleCount, MAX_ACCUMULATED_SAMPLES)`
(forced to `1` for the first sample). -/
def atomicAccumulateResolve (newRadiance : Vec3Q) (cell : CacheCell) : AccumResult :=
  let scaledR := scaleRad newRadiance.r
  let scaledG := scaleRad newRadiance.g
  let scaledB := scaleRad newRadiance.b
  let newR := (cell.accum.sumR + scaledR) % U32
  let newG := (cell.accum.sumG + scaledG) % U32
  let newB := (cell.accum.sumB + scaledB) % U32
  let newCount := (cell.accum.count + 1) % U32
  let sampleCount : ℚ := max (newCount : ℚ) 1
  let accumulated : Vec3Q :=
    ⟨(newR : ℚ) / (RADIANCE_CACHE_RADIANCE_SCALE * sampleCount),
     (newG : ℚ) / (RADIANCE_CACHE_RADIANCE_SCALE * sampleCount),
     (newB : ℚ) / (RADIANCE_CACHE_RADIANCE_SCALE * sampleCount)⟩
  let blend0 : ℚ := 1 / min sampleCount RADIANCE_CACHE_MAX_ACCUMULATED_SAMPLES
  let blend : ℚ := if sampleCount ≤ 1 then 1 else blend0
  let finalRadiance := lerp3 cell.resolved accumulated blend
  ⟨⟨cell.meta, ⟨newR, newG, newB, newCount⟩, finalRadiance⟩, finalRadiance⟩

/-- Embedding of one full radiance-cache write (`GBufferCS.hlsl` lines
367-470): the collision-detection block (compiled in only when
`useCollisionDetection` holds, mirroring `#if RADIANCE_CACHE_USE_COLLISION_DETECTION`)
followed by atomic accumulation and resolve unless the write was flagged to be
skipped, in which case the caller receives the existing resolved value. -/
def radianceCacheWrite (useCollisionDetection : Bool)
    (evictThreshold currentFrame checksum : ℕ) (newRadiance : Vec3Q)
    (cell : CacheCell) : AccumResult :=
  let cc :=
    if useCollisionDetection then
      collisionCheck evictThreshold currentFrame checksum cell
    else
      (cell, false)
  if cc.2 then ⟨cc.1, cc.1.resolved⟩
  else atomicAccumulateResolve newRadiance cc.1

/-- The `PROBE_RAY_HIT_MAP_INVALID` sentinel (`ProbeRayResolveCS.hlsl` line
44): `0xFFFFFFFF` marks a probe ray with no cache dependency. -/
def PROBE_RAY_HIT_MAP_INVALID : ℕ := 4294967295

/-- Embedding of the scatter body of `ProbeRayResolveCS.hlsl` (lines 82-108)
for one recorded query: given the query's `ProbeRayHitMap` entry
`(HashID, asuint(HitDistance))` and the resolved radiance table, return the
`(radiance, hit-distance-bits)` pair delivered to the query's `RayData` output
location, or `none` when the entry holds the invalid sentinel.  The inner
rebinding of `cachedRadiance` reproduces the source's line 99, which overwrites
the value looked up at line 94 with the constant `float3(0.5, 0.5, 0.5)`
under a comment marking it as a DEBUG experiment. -/
def probeRayResolveScatter (hitMapEntry : ℕ × ℕ) (radianceCache : ℕ → Vec3Q) :
    Option (Vec3Q × ℕ) :=
  let hashID := hitMapEntry.1
  let hitDistanceBits := hitMapEntry.2
  if hashID = PROBE_RAY_HIT_MAP_INVALID then none
  else
    let cachedRadiance := radianceCache hashID
    let cachedRadiance := (⟨1 / 2, 1 / 2, 1 / 2⟩ : Vec3Q)
    some (saturate3 cachedRadiance, hitDistanceBits)

/-- Embedding of the four `InterlockedAdd`s alone (`GBufferCS.hlsl` lines
441-445) as one state update of the accumulation entry: each of the four
fields is updated independently by a wrapping `uint` add of the scaled,
saturated contribution (and `1` for the count). -/
def atomicAccumulate (c : Vec3Q) (a : AccumulationEntry) : AccumulationEntry :=
  ⟨(a.sumR + scaleRad c.r) % U32, (a.sumG + scaleRad c.g) % U32,
   (a.sumB + scaleRad c.b) % U32, (a.count + 1) % U32⟩

/-- The combined effect of a set of accepted concurrent accumulate calls to
one index within one time step, starting from the cleared entry.  Because each
`InterlockedAdd` is an atomic add of a fixed integer, any hardware
interleaving acts as some sequential order of the per-write updates, modelled
as a left fold over that order. -/
def accumulateAll (cs : List Vec3Q) : AccumulationEntry :=
  cs.foldl (fun a c => atomicAccumulate c a) zeroAccum

/-- Membership of a rational in the unit interval `[0, 1]`. -/
def in01 (x : ℚ) : Prop := 0 ≤ x ∧ x ≤ 1

/-- Membership of all three radiance channels in the unit interval. -/
def vecIn01 (v : Vec3Q) : Prop := in01 v.r ∧ in01 v.g ∧ in01 v.b

/-- The accumulation-entry invariant maintained by saturated contributions:
each channel sum is at most `1024 * count`, because every single contribution
adds at most `1024 = RADIANCE_CACHE_RADIANCE_SCALE` per channel and `1` to the
count. -/
def accumInv (a : AccumulationEntry) : Prop :=
  a.sumR ≤ 1024 * a.count ∧ a.sumG ≤ 1024 * a.count ∧ a.sumB ≤ 1024 * a.count

/-- The resolve mean in the words of the spec (stated for comparison against
the code path): the unscaled accumulated per-channel sum divided by the
accumulated count, both taken after the current write's contribution. -/
def specMean (rad : Vec3Q) (cell : CacheCell) : Vec3Q :=
  ⟨((cell.accum.sumR + scaleRad rad.r : ℕ) : ℚ) / 1024 / ((cell.accum.count : ℚ) + 1),
   ((cell.accum.sumG + scaleRad rad.g : ℕ) : ℚ) / 1024 / ((cell.accum.count : ℚ) + 1),
   ((cell.accum.sumB + scaleRad rad.b : ℕ) : ℚ) / 1024 / ((cell.accum.count : ℚ) + 1)⟩

/-- The blend factor in the words of the spec (stated for comparison against
the code path): `1 / min(count, MaxAccumulatedSamples)` with the count taken
after the current write's contribution. -/
def specBlend (cell : CacheCell) : ℚ :=
  1 / min ((cell.accum.count : ℚ) + 1) RADIANCE_CACHE_MAX_ACCUMULATED_SAMPLES

/-- The resolve blend law in the words of the spec (stated for comparison
against the code path): `lerp(previousResolved, mean, blend)`. -/
def resolveSpec (rad : Vec3Q) (cell : CacheCell) : Vec3Q :=
  lerp3 cell.resolved (specMean rad cell) (specBlend cell)

/-- Modelled from the spec: the per-time-step clearing of a cell's
`AccumulationEntry`.  The host-side pass that clears the accumulation buffer
between time steps is not among the provided source files (only the shader
side of the cache is); the spec states that after the resolve the cell's
AccumulationEntry is cleared for the next time step while the resolved value
is not cleared. -/
def clearAccumulationEntry (cell : CacheCell) : CacheCell :=
  ⟨cell.meta, zeroAccum, cell.resolved⟩

/-- The sequence of cache writes (each carrying a checksum and a contribution)
landing on one cell within one time step, applied in order; in the source the
resolve is fused into each write, so this is also where the cell's resolved
value is updated. -/
def applyWrites (cd : Bool) (evictThreshold currentFrame : ℕ)
    (writes : List (ℕ × Vec3Q)) (cell : CacheCell) : CacheCell :=
  writes.foldl
    (fun c w => (radianceCacheWrite cd evictThreshold currentFrame w.1 w.2 c).cell) cell

/-- Modelled from the spec: one full time step for a single cell — the
accumulating writes with their fused resolve, followed by the per-time-step
clear of the accumulation entry (the clearing dispatch itself is host code not
among the provided source files). -/
def radianceCacheTimeStep (cd : Bool) (evictThreshold currentFrame : ℕ)
    (writes : List (ℕ × Vec3Q)) (cell : CacheCell) : CacheCell :=
  clearAccumulationEntry (applyWrites cd evictThreshold currentFrame writes cell)

/-- Helper: the first-conjunct characterization of a rejected (skipped) write:
under enabled collision detection, a colliding write onto a recent entry leaves
the collision check returning the unchanged cell with the skip flag set. -/
lemma collisionCheck_reject (evictThreshold currentFrame checksum : ℕ)
    (cell : CacheCell) (hA : cell.meta.checksum ≠ 0)
    (hB : checksum ≠ cell.meta.checksum)
    (hage : usub currentFrame cell.meta.lastWriteTime < evictThreshold) :
    collisionCheck evictThreshold currentFrame checksum cell = (cell, true) := by
  simp only [collisionCheck]
  rw [if_pos ⟨hA, Ne.symm hB⟩, if_neg (Nat.not_le.mpr hage)]

/-- Helper: under enabled collision detection, a colliding write onto a stale
entry resets the cell (zero accumulation, zero resolved history) and claims it
with the incoming checksum and the current frame. -/
lemma collisionCheck_evict (evictThreshold currentFrame checksum : ℕ)
    (cell : CacheCell) (hA : cell.meta.checksum ≠ 0)
    (hB : checksum ≠ cell.meta.checksum)
    (hage : evictThreshold ≤ usub currentFrame cell.meta.lastWriteTime) :
    collisionCheck evictThreshold currentFrame checksum cell =
      (⟨⟨checksum, currentFrame⟩, zeroAccum, zero3⟩, false) := by
  simp only [collisionCheck]
  rw [if_pos ⟨hA, Ne.symm hB⟩, if_pos hage]

/-- C9: determinism of indexing.  The embedded
`SpatialHashCascadeIndexWithChecksum` is a pure function of exactly the
quantized coordinate, the distance quotient and the table configuration, so two
evaluations on equal inputs return the identical `(index, checksum)` pair; no
other input exists for the result to depend on. -/
theorem index_checksum_deterministic (g g' : ℤ × ℤ × ℤ)
    (distQ distQ' CellNum CascadeNum : ℕ) (hg : g = g') (hd : distQ = distQ') :
    SpatialHashCascadeIndexWithChecksum g distQ CellNum CascadeNum =
      SpatialHashCascadeIndexWithChecksum g' distQ' CellNum CascadeNum := by
  rw [hg, hd]

/-- Witness for C9 at a concrete input. -/
theorem index_checksum_deterministic_witness :
    SpatialHashCascadeIndexWithChecksum (1, 2, 3) 5 16 4 =
      SpatialHashCascadeIndexWithChecksum (1, 2, 3) 5 16 4 :=
  index_checksum_deterministic (1, 2, 3) (1, 2, 3) 5 5 16 4 rfl rfl

/-- C8: the cascade hash index is the per-cascade hash modulo `CellNum` offset
by `cascadeLevel * CellNum`; it lies in `[0, CellNum * CascadeNum)`, and two
positions assigned to different cascade levels always receive distinct
indices. -/
theorem hashIndex_range_disjoint (g : ℤ × ℤ × ℤ) (distQ CellNum CascadeNum : ℕ)
    (hca : 1 ≤ CascadeNum) (hce : 1 ≤ CellNum) :
    SpatialHashCascadeIndex g distQ CellNum CascadeNum =
        SpatialHash_H g % CellNum + CalculateCascadeIndex distQ CascadeNum * CellNum ∧
    SpatialHashCascadeIndex g distQ CellNum CascadeNum < CellNum * CascadeNum ∧
    ∀ (g' : ℤ × ℤ × ℤ) (distQ' : ℕ),
      CalculateCascadeIndex distQ CascadeNum ≠ CalculateCascadeIndex distQ' CascadeNum →
      SpatialHashCascadeIndex g distQ CellNum CascadeNum ≠
        SpatialHashCascadeIndex g' distQ' CellNum CascadeNum := by
  have hpos : 0 < CellNum := hce
  have hdiv : ∀ (h : ℤ × ℤ × ℤ) (d : ℕ),
      SpatialHashCascadeIndex h d CellNum CascadeNum / CellNum =
        CalculateCascadeIndex d CascadeNum := by
    intro h d
    unfold SpatialHashCascadeIndex SpatialHashIndex
    rw [Nat.add_mul_div_right _ _ hpos, Nat.div_eq_of_lt (Nat.mod_lt _ hpos),
      Nat.zero_add]
  refine ⟨rfl, ?_, ?_⟩
  · have hlev : CalculateCascadeIndex distQ CascadeNum ≤ CascadeNum - 1 :=
      min_le_right _ _
    have h1 : CalculateCascadeIndex distQ CascadeNum + 1 ≤ CascadeNum := by omega
    have hmod : SpatialHash_H g % CellNum < CellNum := Nat.mod_lt _ hpos
    unfold SpatialHashCascadeIndex SpatialHashIndex
    calc SpatialHash_H g % CellNum + CalculateCascadeIndex distQ CascadeNum * CellNum
        < CellNum + CalculateCascadeIndex distQ CascadeNum * CellNum := by omega
      _ = (CalculateCascadeIndex distQ CascadeNum + 1) * CellNum := by ring
      _ ≤ CascadeNum * CellNum := Nat.mul_le_mul_right _ h1
      _ = CellNum * CascadeNum := Nat.mul_comm _ _
  · intro g' distQ' hne heq
    apply hne
    rw [← hdiv g distQ, ← hdiv g' distQ', heq]

/-- Witness for C8 at a concrete configuration. -/
theorem hashIndex_range_disjoint_witness :
    SpatialHashCascadeIndex (1, 2, 3) 5 16 4 < 16 * 4 :=
  (hashIndex_range_disjoint (1, 2, 3) 5 16 4 (by norm_num) (by norm_num)).2.1

/-- C7 (counterexample): the checksum is NOT guaranteed non-zero.  The source
performs no remapping of a zero hash result, and at the quantized coordinate
`(0, 0, 0)` every per-axis `XorShift32` value is zero, so the computed checksum
is exactly the `0` sentinel that means "unclaimed". -/
theorem checksum_zero_at_origin : SpatialHash_Checksum (0, 0, 0) = 0 := by decide

/-- C7 (amended): the checksum is the plain `uint` sum of the per-axis
`XorShift32` hashes with no non-zero remapping; it is `0` for the origin cell,
and a collision-detection write keyed by such a cell stores checksum `0`, so
the cell remains indistinguishable from an unclaimed one after being written. -/
theorem checksum_zero_unclaimable (cell : CacheCell)
    (evictThreshold currentFrame : ℕ) (rad : Vec3Q)
    (h : cell.meta.checksum = 0) :
    (radianceCacheWrite true evictThreshold currentFrame
        (SpatialHash_Checksum (0, 0, 0)) rad cell).cell.meta.checksum = 0 := by
  have h0 : SpatialHash_Checksum (0, 0, 0) = 0 := by decide
  rw [h0]
  simp [radianceCacheWrite, collisionCheck, atomicAccumulateResolve, h]

/-- Witness for C7's amended claim at a concrete cell. -/
theorem checksum_zero_unclaimable_witness :
    (radianceCacheWrite true 4 9 (SpatialHash_Checksum (0, 0, 0)) ⟨1, 1, 1⟩
        ⟨⟨0, 0⟩, zeroAccum, zero3⟩).cell.meta.checksum = 0 :=
  checksum_zero_unclaimable ⟨⟨0, 0⟩, zeroAccum, zero3⟩ 4 9 ⟨1, 1, 1⟩ rfl

/-- C1: the scatter pass does NOT deliver the resolved cache value.  Because of
the debug override at `ProbeRayResolveCS.hlsl` line 99, every recorded query
with a valid `HashID` receives the constant `(0.5, 0.5, 0.5)` together with its
auxiliary hit distance, independent of the radiance stored at
`RadianceCachingBuffer[HashID]` — contradicting the shader's own header
comment (lines 18-25), which documents that the cached radiance is looked up
and scattered. -/
theorem scatter_delivers_debug_constant :
    probeRayResolveScatter (3, 7) (fun _ => ⟨1, 0, 0⟩) =
        some (⟨1 / 2, 1 / 2, 1 / 2⟩, 7) ∧
    probeRayResolveScatter (3, 7) (fun _ => zero3) =
        some (⟨1 / 2, 1 / 2, 1 / 2⟩, 7) ∧
    (⟨1 / 2, 1 / 2, 1 / 2⟩ : Vec3Q) ≠ ⟨1, 0, 0⟩ := by
  refine ⟨?_, ?_, ?_⟩
  · simp only [probeRayResolveScatter, PROBE_RAY_HIT_MAP_INVALID, saturate3, satQ]
    norm_num
  · simp only [probeRayResolveScatter, PROBE_RAY_HIT_MAP_INVALID, saturate3, satQ]
    norm_num
  · simp only [ne_eq, Vec3Q.mk.injEq]
    norm_num

/-- C2 (counterexample): in the program's default configuration
(`RADIANCE_CACHE_USE_COLLISION_DETECTION = 0`, `GBufferCS.hlsl` line 163) the
collision-detection block is compiled out, so a write whose checksum `7`
differs from the non-zero stored checksum `5` at age `1 < 4` is NOT rejected:
its contribution is accumulated and the `AccumulationEntry` changes. -/
theorem collision_rejection_default_cex :
    (radianceCacheWrite RADIANCE_CACHE_USE_COLLISION_DETECTION
        RADIANCE_CACHE_COLLISION_EVICT_THRESHOLD 11 7 ⟨1, 0, 0⟩
        ⟨⟨5, 10⟩, zeroAccum, zero3⟩).cell.accum ≠ zeroAccum := by
  have hc : (radianceCacheWrite RADIANCE_CACHE_USE_COLLISION_DETECTION
      RADIANCE_CACHE_COLLISION_EVICT_THRESHOLD 11 7 ⟨1, 0, 0⟩
      ⟨⟨5, 10⟩, zeroAccum, zero3⟩).cell.accum.count = 1 := by
    simp [radianceCacheWrite, RADIANCE_CACHE_USE_COLLISION_DETECTION,
      atomicAccumulateResolve, zeroAccum, U32]
  intro h
  rw [h] at hc
  simp [zeroAccum] at hc

/-- C2 (amended): with collision detection enabled, a write whose incoming
checksum differs from the non-zero stored checksum while the entry's age is
below the eviction threshold is rejected outright: the whole cell (metadata
checksum and accumulation entry included) is unchanged and the caller receives
the existing resolved value. -/
theorem collision_rejection_enabled (evictThreshold currentFrame checksum : ℕ)
    (rad : Vec3Q) (cell : CacheCell) (hA : cell.meta.checksum ≠ 0)
    (hB : checksum ≠ cell.meta.checksum)
    (hage : usub currentFrame cell.meta.lastWriteTime < evictThreshold) :
    radianceCacheWrite true evictThreshold currentFrame checksum rad cell =
      ⟨cell, cell.resolved⟩ := by
  simp only [radianceCacheWrite,
    collisionCheck_reject evictThreshold currentFrame checksum cell hA hB hage,
    if_true]

/-- Witness for C2's amended claim at a concrete rejected write. -/
theorem collision_rejection_enabled_witness :
    radianceCacheWrite true RADIANCE_CACHE_COLLISION_EVICT_THRESHOLD 11 7
        ⟨1, 0, 0⟩ ⟨⟨5, 10⟩, zeroAccum, zero3⟩ =
      ⟨⟨⟨5, 10⟩, zeroAccum, zero3⟩, zero3⟩ :=
  collision_rejection_enabled RADIANCE_CACHE_COLLISION_EVICT_THRESHOLD 11 7
    ⟨1, 0, 0⟩ ⟨⟨5, 10⟩, zeroAccum, zero3⟩ (by norm_num) (by norm_num) (by decide)

/-- C3: with collision detection enabled, a colliding write onto an entry whose
age has reached the eviction threshold evicts and re-claims the cell: the
metadata becomes `(B, currentFrame)`, and the final state is exactly the one
obtained by accumulating `B`'s contribution into a cell whose accumulation
entry and resolved value were first reset to zero. -/
theorem collision_eviction (evictThreshold currentFrame checksum : ℕ)
    (rad : Vec3Q) (cell : CacheCell) (hA : cell.meta.checksum ≠ 0)
    (hB : checksum ≠ cell.meta.checksum)
    (hage : evictThreshold ≤ usub currentFrame cell.meta.lastWriteTime) :
    radianceCacheWrite true evictThreshold currentFrame checksum rad cell =
      atomicAccumulateResolve rad ⟨⟨checksum, currentFrame⟩, zeroAccum, zero3⟩ ∧
    (radianceCacheWrite true evictThreshold currentFrame checksum rad
        cell).cell.meta = ⟨checksum, currentFrame⟩ := by
  have h1 : radianceCacheWrite true evictThreshold currentFrame checksum rad cell =
      atomicAccumulateResolve rad ⟨⟨checksum, currentFrame⟩, zeroAccum, zero3⟩ := by
    simp [radianceCacheWrite,
      collisionCheck_evict evictThreshold currentFrame checksum cell hA hB hage]
  exact ⟨h1, by rw [h1]; simp only [atomicAccumulateResolve]⟩

/-- Witness for C3 at a concrete evicting write (default threshold 4, age 4). -/
theorem collision_eviction_witness :
    radianceCacheWrite true RADIANCE_CACHE_COLLISION_EVICT_THRESHOLD 14 7
        ⟨1, 0, 0⟩ ⟨⟨5, 10⟩, ⟨3, 3, 3, 2⟩, ⟨1, 1, 1⟩⟩ =
      atomicAccumulateResolve ⟨1, 0, 0⟩ ⟨⟨7, 14⟩, zeroAccum, zero3⟩ :=
  (collision_eviction RADIANCE_CACHE_COLLISION_EVICT_THRESHOLD 14 7 ⟨1, 0, 0⟩
    ⟨⟨5, 10⟩, ⟨3, 3, 3, 2⟩, ⟨1, 1, 1⟩⟩ (by norm_num) (by norm_num) (by decide)).1

/-- Helper: a scaled contribution never exceeds the fixed-point scale 1024. -/
lemma scaleRad_le (x : ℚ) : scaleRad x ≤ 1024 := by
  unfold scaleRad
  have h1 : satQ x * RADIANCE_CACHE_RADIANCE_SCALE ≤ (1024 : ℚ) := by
    unfold satQ RADIANCE_CACHE_RADIANCE_SCALE
    have h2 : max 0 (min 1 x) ≤ 1 := max_le (by norm_num) (min_le_left _ _)
    nlinarith
  have h3 : ⌊satQ x * RADIANCE_CACHE_RADIANCE_SCALE⌋ ≤ (1024 : ℤ) := by
    calc ⌊satQ x * RADIANCE_CACHE_RADIANCE_SCALE⌋ ≤ ⌊(1024 : ℚ)⌋ :=
          Int.floor_le_floor h1
      _ = 1024 := by norm_num
  exact Int.toNat_le.mpr (by exact_mod_cast h3)

/-- Helper: saturation is the identity on the unit interval. -/
lemma satQ_of_mem (x : ℚ) (h0 : 0 ≤ x) (h1 : x ≤ 1) : satQ x = x := by
  unfold satQ
  rw [min_eq_right h1, max_eq_right h0]

/-- Helper: for a contribution already in the unit interval, the scaled value
is the floor of the contribution times 1024, as a rational. -/
lemma scaleRad_cast (x : ℚ) (h0 : 0 ≤ x) (h1 : x ≤ 1) :
    ((scaleRad x : ℕ) : ℚ) = ((⌊x * 1024⌋ : ℤ) : ℚ) := by
  unfold scaleRad RADIANCE_CACHE_RADIANCE_SCALE
  rw [satQ_of_mem x h0 h1]
  have hnn : (0 : ℤ) ≤ ⌊x * 1024⌋ := Int.floor_nonneg.mpr (by positivity)
  exact_mod_cast congrArg (Int.cast : ℤ → ℚ) (Int.toNat_of_nonneg hnn)

/-- Helper: the integer sum of scaled contributions is at most `1024 * N`. -/
lemma natSum_scaled_le (cs : List Vec3Q) (f : Vec3Q → ℚ) :
    (cs.map fun c => scaleRad (f c)).sum ≤ 1024 * cs.length := by
  induction cs with
  | nil => simp
  | cons c cs ih =>
    simp only [List.map_cons, List.sum_cons, List.length_cons]
    have := scaleRad_le (f c)
    omega

/-- Helper: rational bounds on the sum of scaled contributions for inputs in
the unit interval: the scaled sum is at most `1024` times the true sum, and
undershoots it by less than one unit per element. -/
lemma floorSum_bounds (cs : List Vec3Q) (f : Vec3Q → ℚ)
    (h : ∀ c ∈ cs, 0 ≤ f c ∧ f c ≤ 1) :
    (cs.map fun c => ((scaleRad (f c) : ℕ) : ℚ)).sum ≤ (cs.map f).sum * 1024 ∧
    (cs.map f).sum * 1024 - cs.length ≤
      (cs.map fun c => ((scaleRad (f c) : ℕ) : ℚ)).sum := by
  induction cs with
  | nil => simp
  | cons c cs ih =>
    have hc := h c (List.mem_cons_self c cs)
    have hrest := ih fun y hy => h y (List.mem_cons_of_mem _ hy)
    have hcast := scaleRad_cast (f c) hc.1 hc.2
    have hub : ((scaleRad (f c) : ℕ) : ℚ) ≤ f c * 1024 := by
      rw [hcast]; exact Int.floor_le _
    have hlb : f c * 1024 - 1 < ((scaleRad (f c) : ℕ) : ℚ) := by
      rw [hcast]; exact Int.sub_one_lt_floor _
    simp only [List.map_cons, List.sum_cons, List.length_cons]
    constructor
    · have := hrest.1
      nlinarith
    · have := hrest.2
      push_cast
      nlinarith

/-- Helper: characterization of a fold of atomic accumulates over a normalized
start entry: each field is the wrapped sum of the start value and the per-write
scaled contributions (resp. the write count). -/
lemma accumFold_char (cs : List Vec3Q) (a : AccumulationEntry)
    (h1 : a.sumR < U32) (h2 : a.sumG < U32) (h3 : a.sumB < U32)
    (h4 : a.count < U32) :
    cs.foldl (fun x c => atomicAccumulate c x) a =
      ⟨(a.sumR + (cs.map fun c => scaleRad c.r).sum) % U32,
       (a.sumG + (cs.map fun c => scaleRad c.g).sum) % U32,
       (a.sumB + (cs.map fun c => scaleRad c.b).sum) % U32,
       (a.count + cs.length) % U32⟩ := by
  have upos : 0 < U32 := by norm_num [U32]
  induction cs generalizing a with
  | nil =>
    simp [Nat.mod_eq_of_lt h1, Nat.mod_eq_of_lt h2, Nat.mod_eq_of_lt h3,
      Nat.mod_eq_of_lt h4]
  | cons c cs ih =>
    simp only [List.foldl_cons, List.map_cons, List.sum_cons, List.length_cons]
    rw [ih (atomicAccumulate c a) (Nat.mod_lt _ upos) (Nat.mod_lt _ upos)
      (Nat.mod_lt _ upos) (Nat.mod_lt _ upos)]
    unfold atomicAccumulate
    simp only [AccumulationEntry.mk.injEq]
    refine ⟨?_, ?_, ?_, ?_⟩ <;> rw [Nat.mod_add_mod] <;> congr 1 <;> omega

/-- Helper: the accumulation entry after all of a time step's accepted writes,
starting from the cleared entry: the wrapped scaled channel sums and the
write count. -/
lemma accumulateAll_char (cs : List Vec3Q) :
    accumulateAll cs =
      ⟨(cs.map fun c => scaleRad c.r).sum % U32,
       (cs.map fun c => scaleRad c.g).sum % U32,
       (cs.map fun c => scaleRad c.b).sum % U32,
       cs.length % U32⟩ := by
  unfold accumulateAll
  rw [accumFold_char cs zeroAccum (by norm_num [zeroAccum, U32])
    (by norm_num [zeroAccum, U32]) (by norm_num [zeroAccum, U32])
    (by norm_num [zeroAccum, U32])]
  simp [zeroAccum]

/-- Helper: the per-channel fixed-point rounding error of the accumulated mean
is at most `1 / 1024` for contributions in the unit interval. -/
lemma channel_error (cs : List Vec3Q) (f : Vec3Q → ℚ)
    (hmem : ∀ c ∈ cs, 0 ≤ f c ∧ f c ≤ 1) (hlen : 0 < cs.length)
    (hov : 1024 * cs.length < U32) :
    |((((cs.map fun c => scaleRad (f c)).sum % U32 : ℕ) : ℚ) / 1024 / cs.length) -
      (cs.map f).sum / cs.length| ≤ 1 / 1024 := by
  have hmod : (cs.map fun c => scaleRad (f c)).sum % U32 =
      (cs.map fun c => scaleRad (f c)).sum :=
    Nat.mod_eq_of_lt (lt_of_le_of_lt (natSum_scaled_le cs f) hov)
  rw [hmod]
  have hcast : (((cs.map fun c => scaleRad (f c)).sum : ℕ) : ℚ) =
      (cs.map fun c => ((scaleRad (f c) : ℕ) : ℚ)).sum := by
    rw [Nat.cast_list_sum, List.map_map]
    rfl
  rw [hcast]
  obtain ⟨hub, hlb⟩ := floorSum_bounds cs f hmem
  have hN : (0 : ℚ) < cs.length := by exact_mod_cast hlen
  have key : (cs.map fun c => ((scaleRad (f c) : ℕ) : ℚ)).sum / 1024 / cs.length -
      (cs.map f).sum / cs.length =
      ((cs.map fun c => ((scaleRad (f c) : ℕ) : ℚ)).sum - (cs.map f).sum * 1024) /
        (1024 * cs.length) := by
    field_simp
    ring
  rw [key, abs_div, abs_of_pos (by positivity : (0 : ℚ) < 1024 * cs.length),
    div_le_div_iff (by positivity) (by norm_num : (0 : ℚ) < 1024)]
  have habs : |(cs.map fun c => ((scaleRad (f c) : ℕ) : ℚ)).sum -
      (cs.map f).sum * 1024| ≤ cs.length :=
    abs_le.mpr ⟨by linarith, by linarith⟩
  nlinarith [habs]

/-- C4: merge correctness of a time step's accepted accumulate calls to one
index, starting from the cleared entry: the final count equals the number of
calls, the unscaled per-channel sum divided by the count matches the exact
mean of the contributions to within `1 / RADIANCE_CACHE_RADIANCE_SCALE`, and
the result is independent of the order in which the atomic adds landed. -/
theorem merge_correctness (cs : List Vec3Q) (hmem : ∀ c ∈ cs, vecIn01 c)
    (hlen : 0 < cs.length) (hov : 1024 * cs.length < U32) :
    (accumulateAll cs).count = cs.length ∧
    |((accumulateAll cs).sumR : ℚ) / 1024 / cs.length -
      (cs.map Vec3Q.r).sum / cs.length| ≤ 1 / 1024 ∧
    |((accumulateAll cs).sumG : ℚ) / 1024 / cs.length -
      (cs.map Vec3Q.g).sum / cs.length| ≤ 1 / 1024 ∧
    |((accumulateAll cs).sumB : ℚ) / 1024 / cs.length -
      (cs.map Vec3Q.b).sum / cs.length| ≤ 1 / 1024 ∧
    ∀ cs' : List Vec3Q, cs'.Perm cs → accumulateAll cs' = accumulateAll cs := by
  have hchar := accumulateAll_char cs
  have hlenU : cs.length < U32 := by omega
  refine ⟨?_, ?_, ?_, ?_, ?_⟩
  · rw [hchar]
    exact Nat.mod_eq_of_lt hlenU
  · rw [hchar]
    exact channel_error cs Vec3Q.r (fun c hc => (hmem c hc).1) hlen hov
  · rw [hchar]
    exact channel_error cs Vec3Q.g (fun c hc => (hmem c hc).2.1) hlen hov
  · rw [hchar]
    exact channel_error cs Vec3Q.b (fun c hc => (hmem c hc).2.2) hlen hov
  · intro cs' hperm
    rw [accumulateAll_char cs', accumulateAll_char cs,
      (hperm.map fun c => scaleRad c.r).sum_eq,
      (hperm.map fun c => scaleRad c.g).sum_eq,
      (hperm.map fun c => scaleRad c.b).sum_eq, hperm.length_eq]

/-- Witness for C4 on two concrete accepted contributions. -/
theorem merge_correctness_witness :
    (accumulateAll [⟨1, 0, 0⟩, ⟨0, 1, 0⟩]).count =
      ([⟨1, 0, 0⟩, ⟨0, 1, 0⟩] : List Vec3Q).length :=
  (merge_correctness [⟨1, 0, 0⟩, ⟨0, 1, 0⟩]
    (by
      intro c hc
      simp only [List.mem_cons, List.not_mem_nil, or_false] at hc
      rcases hc with h | h <;> subst h <;> norm_num [vecIn01, in01])
    (by norm_num) (by norm_num [U32])).1

/-- Helper: `lerp` with blend factor 1 returns the target value exactly. -/
lemma lerp3_one (x y : Vec3Q) : lerp3 x y 1 = y := by
  cases x
  cases y
  simp only [lerp3, lerpQ, Vec3Q.mk.injEq]
  refine ⟨by ring, by ring, by ring⟩

/-- Helper: the code's conditional blend factor (`1` when the sample count is
at most one, `1 / min(SampleCount, 32)` otherwise) equals the single formula
`1 / min(count, 32)`, because `min(1, 32) = 1`. -/
lemma blend_eq (n : ℕ) :
    (if (((n + 1 : ℕ)) : ℚ) ≤ 1 then (1 : ℚ)
      else 1 / min (((n + 1 : ℕ)) : ℚ) RADIANCE_CACHE_MAX_ACCUMULATED_SAMPLES) =
      1 / min ((n : ℚ) + 1) RADIANCE_CACHE_MAX_ACCUMULATED_SAMPLES := by
  unfold RADIANCE_CACHE_MAX_ACCUMULATED_SAMPLES
  rcases Nat.eq_zero_or_pos n with h0 | hpos
  · subst h0
    norm_num [min_def]
  · have h2 : (2 : ℚ) ≤ ((n + 1 : ℕ) : ℚ) := by exact_mod_cast Nat.succ_le_succ hpos
    rw [if_neg (by linarith)]
    push_cast
    rfl

/-- Helper: the code's conditional blend factor always lies in `[0, 1]`. -/
lemma blendCode_in01 (n : ℕ) :
    in01 (if (((n + 1 : ℕ)) : ℚ) ≤ 1 then (1 : ℚ)
      else 1 / min (((n + 1 : ℕ)) : ℚ) RADIANCE_CACHE_MAX_ACCUMULATED_SAMPLES) := by
  unfold RADIANCE_CACHE_MAX_ACCUMULATED_SAMPLES in01
  split
  · exact ⟨by norm_num, le_refl 1⟩
  · have h1 : (1 : ℚ) ≤ ((n + 1 : ℕ) : ℚ) := by exact_mod_cast Nat.le_add_left 1 n
    have hmin : (1 : ℚ) ≤ min (((n + 1 : ℕ)) : ℚ) 32 := le_min h1 (by norm_num)
    exact ⟨div_nonneg zero_le_one (by linarith),
      by rw [div_le_one (by linarith)]; exact hmin⟩

/-- Helper: a convex combination of two unit-interval values with a
unit-interval blend factor stays in the unit interval. -/
lemma lerpQ_mem (x y s : ℚ) (hx : in01 x) (hy : in01 y) (hs : in01 s) :
    in01 (lerpQ x y s) := by
  obtain ⟨hx0, hx1⟩ := hx
  obtain ⟨hy0, hy1⟩ := hy
  obtain ⟨hs0, hs1⟩ := hs
  unfold lerpQ in01
  constructor <;> nlinarith

/-- Helper: one resolved channel stays in the unit interval when the channel
sum respects the `1024 * count` bound. -/
lemma channel_in01 (old : ℚ) (s n : ℕ) (blend : ℚ) (hold : in01 old)
    (hb : in01 blend) (hs : s ≤ 1024 * (n + 1)) :
    in01 (lerpQ old ((s : ℚ) / (1024 * ((n + 1 : ℕ) : ℚ))) blend) := by
  have hn : (0 : ℚ) < ((n + 1 : ℕ) : ℚ) := by exact_mod_cast Nat.succ_pos n
  have hden : (0 : ℚ) < 1024 * ((n + 1 : ℕ) : ℚ) := mul_pos (by norm_num) hn
  apply lerpQ_mem _ _ _ hold _ hb
  refine ⟨div_nonneg (Nat.cast_nonneg s) hden.le, ?_⟩
  rw [div_le_one hden]
  exact_mod_cast hs

/-- C5: the resolve blend law.  Under no 32-bit overflow, the updated resolved
value computed by the code equals the spec's
`lerp(previousResolved, mean, 1 / min(count, MaxAccumulatedSamples))` with
`mean` the unscaled accumulated sum divided by the accumulated count; on a
cell's first write (`count = 0` before the write) the blend factor is exactly
`1` and the resolved value equals the mean with no history contribution. -/
theorem resolve_blend_law (rad : Vec3Q) (cell : CacheCell)
    (hcnt : cell.accum.count + 1 < U32)
    (hr : cell.accum.sumR + scaleRad rad.r < U32)
    (hg : cell.accum.sumG + scaleRad rad.g < U32)
    (hb : cell.accum.sumB + scaleRad rad.b < U32) :
    (atomicAccumulateResolve rad cell).cell.resolved = resolveSpec rad cell ∧
    (cell.accum.count = 0 →
      specBlend cell = 1 ∧
      (atomicAccumulateResolve rad cell).cell.resolved = specMean rad cell) := by
  have hmain : (atomicAccumulateResolve rad cell).cell.resolved =
      resolveSpec rad cell := by
    unfold atomicAccumulateResolve resolveSpec specMean specBlend
    simp only [Nat.mod_eq_of_lt hr, Nat.mod_eq_of_lt hg, Nat.mod_eq_of_lt hb,
      Nat.mod_eq_of_lt hcnt]
    rw [max_eq_left (by exact_mod_cast Nat.le_add_left 1 cell.accum.count :
      (1 : ℚ) ≤ ((cell.accum.count + 1 : ℕ) : ℚ))]
    rw [blend_eq cell.accum.count]
    unfold RADIANCE_CACHE_RADIANCE_SCALE
    congr 1
    simp only [Vec3Q.mk.injEq]
    refine ⟨?_, ?_, ?_⟩ <;> rw [div_div] <;> push_cast <;> ring
  refine ⟨hmain, fun h0 => ?_⟩
  have hb1 : specBlend cell = 1 := by
    unfold specBlend RADIANCE_CACHE_MAX_ACCUMULATED_SAMPLES
    rw [h0]
    norm_num [min_def]
  refine ⟨hb1, ?_⟩
  rw [hmain]
  unfold resolveSpec
  rw [hb1, lerp3_one]

/-- Witness for C5 at a concrete cell and contribution (fourth write,
count 3 before the write, saturated green channel). -/
theorem resolve_blend_law_witness :
    (atomicAccumulateResolve ⟨1, 2, 0⟩
        ⟨⟨9, 3⟩, ⟨100, 200, 300, 3⟩, ⟨1/4, 0, 1⟩⟩).cell.resolved =
      resolveSpec ⟨1, 2, 0⟩ ⟨⟨9, 3⟩, ⟨100, 200, 300, 3⟩, ⟨1/4, 0, 1⟩⟩ :=
  (resolve_blend_law ⟨1, 2, 0⟩ ⟨⟨9, 3⟩, ⟨100, 200, 300, 3⟩, ⟨1/4, 0, 1⟩⟩
    (by norm_num [U32])
    (by norm_num [scaleRad, satQ, RADIANCE_CACHE_RADIANCE_SCALE, U32]; decide)
    (by norm_num [scaleRad, satQ, RADIANCE_CACHE_RADIANCE_SCALE, U32]; decide)
    (by norm_num [scaleRad, satQ, RADIANCE_CACHE_RADIANCE_SCALE, U32])).1

/-- C10: the resolved-value range invariant of the atomic accumulation path.
If the cell's resolved radiance lies in `[0, 1]` per channel, its accumulation
entry satisfies the saturation invariant `sum ≤ 1024 * count`, and no 32-bit
sum overflows, then after the update the resolved radiance again lies in
`[0, 1]` per channel and the saturation invariant is preserved. -/
theorem resolved_range_invariant (rad : Vec3Q) (cell : CacheCell)
    (hres : vecIn01 cell.resolved) (hinv : accumInv cell.accum)
    (hcnt : cell.accum.count + 1 < U32)
    (hr : cell.accum.sumR + 1024 < U32)
    (hg : cell.accum.sumG + 1024 < U32)
    (hb : cell.accum.sumB + 1024 < U32) :
    vecIn01 (atomicAccumulateResolve rad cell).cell.resolved ∧
    accumInv (atomicAccumulateResolve rad cell).cell.accum := by
  obtain ⟨hir, hig, hib⟩ := hinv
  have hsr := scaleRad_le rad.r
  have hsg := scaleRad_le rad.g
  have hsb := scaleRad_le rad.b
  have hmr : (cell.accum.sumR + scaleRad rad.r) % U32 =
      cell.accum.sumR + scaleRad rad.r := Nat.mod_eq_of_lt (by omega)
  have hmg : (cell.accum.sumG + scaleRad rad.g) % U32 =
      cell.accum.sumG + scaleRad rad.g := Nat.mod_eq_of_lt (by omega)
  have hmb : (cell.accum.sumB + scaleRad rad.b) % U32 =
      cell.accum.sumB + scaleRad rad.b := Nat.mod_eq_of_lt (by omega)
  have hmc : (cell.accum.count + 1) % U32 = cell.accum.count + 1 :=
    Nat.mod_eq_of_lt hcnt
  have hbr : cell.accum.sumR + scaleRad rad.r ≤ 1024 * (cell.accum.count + 1) := by
    omega
  have hbg : cell.accum.sumG + scaleRad rad.g ≤ 1024 * (cell.accum.count + 1) := by
    omega
  have hbb : cell.accum.sumB + scaleRad rad.b ≤ 1024 * (cell.accum.count + 1) := by
    omega
  obtain ⟨hrr, hrg, hrb⟩ := hres
  have hblend := blendCode_in01 cell.accum.count
  constructor
  · unfold atomicAccumulateResolve
    simp only [hmr, hmg, hmb, hmc]
    rw [max_eq_left (by exact_mod_cast Nat.le_add_left 1 cell.accum.count :
      (1 : ℚ) ≤ ((cell.accum.count + 1 : ℕ) : ℚ))]
    unfold RADIANCE_CACHE_RADIANCE_SCALE
    exact ⟨channel_in01 _ _ _ _ hrr hblend hbr,
      channel_in01 _ _ _ _ hrg hblend hbg,
      channel_in01 _ _ _ _ hrb hblend hbb⟩
  · unfold atomicAccumulateResolve accumInv
    simp only [hmr, hmg, hmb, hmc]
    refine ⟨?_, ?_, ?_⟩ <;> omega

/-- Witness for C10 at a concrete first write with an out-of-range
contribution (saturation active on all three channels). -/
theorem resolved_range_invariant_witness :
    vecIn01 (atomicAccumulateResolve ⟨2, -1, 1/3⟩
        ⟨⟨0, 0⟩, zeroAccum, zero3⟩).cell.resolved ∧
    accumInv (atomicAccumulateResolve ⟨2, -1, 1/3⟩
        ⟨⟨0, 0⟩, zeroAccum, zero3⟩).cell.accum :=
  resolved_range_invariant ⟨2, -1, 1/3⟩ ⟨⟨0, 0⟩, zeroAccum, zero3⟩
    (by norm_num [vecIn01, in01, zero3])
    (by norm_num [accumInv, zeroAccum])
    (by norm_num [zeroAccum, U32]) (by norm_num [zeroAccum, U32])
    (by norm_num [zeroAccum, U32]) (by norm_num [zeroAccum, U32])

/-- C6: per-time-step clearing.  After a time step (the cell's writes with
their fused resolve, followed by the spec's per-time-step clear), the cell's
accumulation entry is zero so the next time step starts a fresh accumulation,
while the resolved value and the metadata are exactly those produced by the
writes — the clear never touches them, so the resolved value persists across
time steps as the carried-forward state. -/
theorem timestep_clear_semantics (cd : Bool) (evictThreshold currentFrame : ℕ)
    (writes : List (ℕ × Vec3Q)) (cell : CacheCell) :
    (radianceCacheTimeStep cd evictThreshold currentFrame writes cell).accum =
        zeroAccum ∧
    (radianceCacheTimeStep cd evictThreshold currentFrame writes cell).resolved =
        (applyWrites cd evictThreshold currentFrame writes cell).resolved ∧
    (radianceCacheTimeStep cd evictThreshold currentFrame writes cell).meta =
        (applyWrites cd evictThreshold currentFrame writes cell).meta :=
  ⟨rfl, rfl, rfl⟩
